import Mathlib

/-!
Verification development for the steit runtime core.

Embedded source files:
* `src/steit/src/rt/runtime.rs` — the `Runtime` facade (address derivation,
  logging operations, degenerate equality, wire delegation).
* `src/steit-derive/src/field.rs` — the field model of the derive macro
  (wire types, the generated setters and serializers).

The path-node tree (`node.rs`), the logger (`log.rs`) and the scalar varint
codec are declared and used by these files but their sources are not part of
the excerpt; those parts are modelled from the specification and marked as
such in their doc comments.

Machine integers are embedded as `Nat` with explicit `% 2 ^ 32` where the
Rust code computes in `u32`.  Fallible operations (the logger sink) return
`Except`; a Rust panic (`expect` / `unwrap`) is modelled as `Option.none`.
-/

namespace Steit

/-- Modelled from the spec: the missing scalar codec for unsigned integers.
The spec fixes headers, lengths and tags to be written as varints
(base-128, little-endian, continuation bit on every byte but the last). -/
def varint (n : Nat) : List Nat :=
  if n < 128 then [n]
  else (n % 128 + 128) :: varint (n / 128)
decreasing_by exact Nat.div_lt_self (by omega) (by omega)

/-- Byte length of the varint encoding of `n`. -/
def varintSize (n : Nat) : Nat :=
  (varint n).length

/-- Modelled from the spec: `PathNode` from the missing `node.rs` —
variant `Root` or `Child {parent, tag}`.  Each node additionally carries
the cached-size cell demanded by the WireValue contract (the most recently
cached byte size of the node's own encoding); a freshly built node starts
with cache `0`. -/
inductive Node where
  | root (cached : Nat)
  | child (parent : Node) (tag : Nat) (cached : Nat)
deriving DecidableEq, Repr

/-- Root-to-node sequence of tags: the address denoted by a node. -/
def Node.tags : Node → List Nat
  | .root _ => []
  | .child p t _ => Node.tags p ++ [t]

/-- Modelled from the spec: `parent(node)` returns the ancestor reference,
or nothing when the node is `Root`. -/
def Node.parent : Node → Option Node
  | .root _ => none
  | .child p _ _ => some p

/-- Modelled from the spec: the path encodes as the root-to-leaf tag
sequence, each tag a varint scalar; the size is the sum of the tag sizes. -/
def Node.compute_size : Node → Nat
  | .root _ => 0
  | .child p t _ => Node.compute_size p + varintSize t

/-- Reads the cached-size cell of the node itself. -/
def Node.cached_size : Node → Nat
  | .root c => c
  | .child _ _ c => c

/-- Writes the varint of every tag from the root to this node. -/
def Node.serialize_with_cached_size : Node → List Nat
  | .root _ => []
  | .child p t _ => Node.serialize_with_cached_size p ++ varint t

/-- Fills the cached-size cell of every node on the chain with the size the
node would compute. -/
def Node.setCachedSizes : Node → Node
  | .root _ => .root 0
  | .child p t _ => .child (Node.setCachedSizes p) t (Node.compute_size p + varintSize t)

/-- Modelled from the spec: `serialize` computes the size, caches it, and
writes the value; returns the bytes written and the node with its caches
filled. -/
def Node.serialize (n : Node) : List Nat × Node :=
  ((Node.setCachedSizes n).serialize_with_cached_size, Node.setCachedSizes n)

/-- Modelled from the spec: a path node is not a scalar, so its associated
wire-type constant is the length-delimited discriminator `2`. -/
def Node.WIRE_TYPE : Nat := 2

/-- Modelled from the spec: a change record — `Update(path, encodedValue)`,
`Add(path, encodedValue)` or `Remove(path)` (no payload).  The `path` is an
independent address snapshot, embedded as the tag list. -/
inductive LogEntry where
  | update (path : List Nat) (value : List Nat)
  | add (path : List Nat) (value : List Nat)
  | remove (path : List Nat)
deriving DecidableEq, Repr

/-- Modelled from the spec: the logger — an append-only buffer of change
records behind a shared handle, plus the health of the underlying sink it
forwards to (`sinkOk = false` models an I/O failure of that sink). -/
structure Logger where
  sinkOk : Bool
  entries : List LogEntry
deriving DecidableEq, Repr

/-- Modelled from the spec: a fresh logger has an empty buffer (and a
healthy sink). -/
def Logger.new : Logger :=
  ⟨true, []⟩

/-- Modelled from the spec: `log_entry` appends the record; it fails only
on an underlying sink failure, never on the record's content. -/
def Logger.log_entry (l : Logger) (e : LogEntry) : Except Unit Logger :=
  if l.sinkOk then .ok { l with entries := l.entries ++ [e] } else .error ()

/-- `Runtime` from `runtime.rs`: a logger handle paired with the current
path.  The shared logger buffer is threaded explicitly: operations that
append to the shared buffer return the runtime carrying the updated
logger. -/
structure Runtime where
  logger : Logger
  path : Node
deriving DecidableEq, Repr

/-- `Runtime::new` — the `Default` derivation: fresh root path, fresh
logger. -/
def Runtime.new : Runtime :=
  ⟨Logger.new, .root 0⟩

/-- `Runtime::nested` — clones the logger handle and extends the path by
one freshly allocated child node carrying `tag`. -/
def Runtime.nested (r : Runtime) (tag : Nat) : Runtime :=
  ⟨r.logger, .child r.path tag 0⟩

/-- `Runtime::parent` — shares the logger handle and steps to the ancestor
node; the Rust code panics via `expect` on a root path, modelled as
`none`. -/
def Runtime.parent (r : Runtime) : Option Runtime :=
  (Node.parent r.path).map fun p => ⟨r.logger, p⟩

/-- `Runtime::is_root`. -/
def Runtime.is_root (r : Runtime) : Bool :=
  match r.path with
  | .root _ => true
  | .child _ _ _ => false

/-- `Runtime::is_child`. -/
def Runtime.is_child (r : Runtime) : Bool :=
  !r.is_root

/-- Modelled from the spec: `LogEntry::new_update` snapshots the runtime's
address and pairs it with the already-encoded payload. -/
def LogEntry.new_update (rt : Runtime) (encoded : List Nat) : LogEntry :=
  .update rt.path.tags encoded

/-- Modelled from the spec: `LogEntry::new_add`. -/
def LogEntry.new_add (rt : Runtime) (encoded : List Nat) : LogEntry :=
  .add rt.path.tags encoded

/-- Modelled from the spec: `LogEntry::new_remove` — no payload. -/
def LogEntry.new_remove (rt : Runtime) : LogEntry :=
  .remove rt.path.tags

/-- `Runtime::log_update` — logs `Update` at the address extended by
`tag`, with the value encoded by its `Serialize` impl (`enc`). -/
def Runtime.log_update {α : Type} (enc : α → List Nat) (r : Runtime) (tag : Nat)
    (v : α) : Except Unit Runtime :=
  (r.logger.log_entry (LogEntry.new_update (r.nested tag) (enc v))).map
    fun l => { r with logger := l }

/-- `Runtime::log_update_in_place` — logs `Update` at the runtime's own
address. -/
def Runtime.log_update_in_place {α : Type} (enc : α → List Nat) (r : Runtime)
    (v : α) : Except Unit Runtime :=
  (r.logger.log_entry (LogEntry.new_update r (enc v))).map
    fun l => { r with logger := l }

/-- `Runtime::log_add` — logs `Add` at the runtime's own address. -/
def Runtime.log_add {α : Type} (enc : α → List Nat) (r : Runtime)
    (v : α) : Except Unit Runtime :=
  (r.logger.log_entry (LogEntry.new_add r (enc v))).map
    fun l => { r with logger := l }

/-- `Runtime::log_remove` — logs `Remove` at the address extended by
`tag`. -/
def Runtime.log_remove (r : Runtime) (tag : Nat) : Except Unit Runtime :=
  (r.logger.log_entry (LogEntry.new_remove (r.nested tag))).map
    fun l => { r with logger := l }

/-- `impl PartialEq for Runtime`: `fn eq(&self, _other: &Self) -> bool {
true }`. -/
def Runtime.eq (_a _b : Runtime) : Bool :=
  true

/-- `impl WireType for Runtime`: `WIRE_TYPE = Node::<u16>::WIRE_TYPE`. -/
def Runtime.WIRE_TYPE : Nat :=
  Node.WIRE_TYPE

/-- `Runtime::compute_size` delegates to the path. -/
def Runtime.compute_size (r : Runtime) : Nat :=
  r.path.compute_size

/-- `Runtime::cached_size` delegates to the path. -/
def Runtime.cached_size (r : Runtime) : Nat :=
  r.path.cached_size

/-- `Runtime::serialize_with_cached_size` delegates to the path. -/
def Runtime.serialize_with_cached_size (r : Runtime) : List Nat :=
  r.path.serialize_with_cached_size

/-- `Runtime::serialize` delegates to the path: same bytes, and the
path's cache updates land back in the runtime. -/
def Runtime.serialize (r : Runtime) : List Nat × Runtime :=
  ((r.path.serialize).1, ⟨r.logger, (r.path.serialize).2⟩)

/-- `FieldKind` from `field.rs`: a field is either a supported primitive
type or a nested stateful object. -/
inductive FieldKind where
  | primitive
  | state
deriving DecidableEq, Repr

/-- `IndexedField::wire_type` from `field.rs`: `0` for a primitive field,
`2` for a nested stateful field. -/
def FieldKind.wire_type : FieldKind → Nat
  | .primitive => 0
  | .state => 2

/-- Value of the header expression emitted by
`IndexedField::get_serializer`: `(#tag << 3 | #wire_type)` computed in
`u32` (the `u16` tag is cast to `u32` first). -/
def fieldHeader (tag : Nat) (k : FieldKind) : Nat :=
  ((tag <<< 3) % 2 ^ 32) ||| k.wire_type

/-- Bytes written by the serializer `IndexedField::get_serializer` emits
for one field: the varint of the header expression, then the field
value's own bytes. -/
def fieldSerializer (tag : Nat) (k : FieldKind) (valueBytes : List Nat) : List Nat :=
  varint (fieldHeader tag k) ++ valueBytes

/-- A nested stateful field value: the runtime the generated constructor
stored, plus its payload data (abstracted to one number). -/
structure StateValue where
  runtime : Runtime
  data : Nat
deriving DecidableEq, Repr

/-- A generated struct with one primitive field. -/
structure PrimStruct where
  runtime : Runtime
  field : Nat
deriving DecidableEq, Repr

/-- A generated struct with one nested stateful field. -/
structure StateStruct where
  runtime : Runtime
  field : StateValue
deriving DecidableEq, Repr

/-- Setter `IndexedField::get_setter` emits for a primitive field
(no enum variant): `self.runtime().log_update(#tag, &value).unwrap();
self.#access = value;`.  The `.unwrap()` panic on a sink failure is
modelled as `none`. -/
def PrimStruct.set_field (enc : Nat → List Nat) (tag : Nat) (o : PrimStruct)
    (v : Nat) : Option PrimStruct :=
  match o.runtime.log_update enc tag v with
  | .ok rt => some ⟨rt, v⟩
  | .error _ => none

/-- Setter `IndexedField::get_setter` emits for a nested stateful field
(no enum variant): `let value = get_value(runtime.nested(#tag));
runtime.log_update(#tag, &value).unwrap(); self.#access = value;`. -/
def StateStruct.set_field_with (enc : StateValue → List Nat) (tag : Nat)
    (o : StateStruct) (get_value : Runtime → StateValue) : Option StateStruct :=
  let value := get_value (o.runtime.nested tag)
  match o.runtime.log_update enc tag value with
  | .ok rt => some ⟨rt, value⟩
  | .error _ => none

/-- A generated enum value: the runtime its variant constructor stored,
the tag of the variant currently inhabited, and one primitive field. -/
structure EnumValue where
  runtime : Runtime
  variantTag : Nat
  data : Nat
deriving DecidableEq, Repr

/-- Variant constructor `new_{variant}`: per `RuntimeField::get_init`
with a variant tag, the stored runtime is `runtime.nested(#tag)`. -/
def mkVariant (rt : Runtime) (vtag : Nat) : EnumValue :=
  ⟨rt.nested vtag, vtag, 0⟩

/-- Setter `IndexedField::get_setter` emits for a primitive field of an
enum variant: first the reset block — when `self` is not the target
variant, `let runtime = self.runtime().parent(); let value =
Self::new_{variant}(runtime); value.runtime().parent()
.log_update(#vtag, &value).unwrap(); *self = value;` — then the field
update `self.runtime().log_update(#tag, &value).unwrap()` and the
assignment.  Both the `expect` inside `Runtime::parent` and each
`.unwrap()` are modelled as `none`. -/
def EnumValue.set_variant_field (encE : EnumValue → List Nat)
    (encP : Nat → List Nat) (vtag tag : Nat) (self : EnumValue)
    (v : Nat) : Option EnumValue :=
  let reset : Option EnumValue :=
    if self.variantTag = vtag then some self
    else
      match self.runtime.parent with
      | none => none
      | some runtime =>
        let value := mkVariant runtime vtag
        match value.runtime.parent with
        | none => none
        | some vp =>
          match vp.log_update encE vtag value with
          | .error _ => none
          | .ok vp2 => some { value with runtime := ⟨vp2.logger, value.runtime.path⟩ }
  match reset with
  | none => none
  | some self1 =>
    match self1.runtime.log_update encP tag v with
    | .error _ => none
    | .ok rt => some { self1 with runtime := rt, data := v }

/-- Helper: a healthy sink makes `log_update` append exactly its one
`Update` record. -/
theorem log_update_ok {α : Type} (enc : α → List Nat) (r : Runtime) (tag : Nat)
    (v : α) (h : r.logger.sinkOk = true) :
    r.log_update enc tag v =
      .ok ⟨⟨true, r.logger.entries ++ [.update (r.path.tags ++ [tag]) (enc v)]⟩, r.path⟩ := by
  obtain ⟨⟨ok, es⟩, p⟩ := r
  simp only at h
  subst h
  simp [Runtime.log_update, Logger.log_entry, LogEntry.new_update, Runtime.nested,
    Node.tags, Except.map]

/-- Helper: a failed sink makes `log_update` report the sink error. -/
theorem log_update_err {α : Type} (enc : α → List Nat) (r : Runtime) (tag : Nat)
    (v : α) (h : r.logger.sinkOk = false) :
    r.log_update enc tag v = .error () := by
  obtain ⟨⟨ok, es⟩, p⟩ := r
  simp only at h
  subst h
  simp [Runtime.log_update, Logger.log_entry, Except.map]

/-- Helper: a healthy sink makes `log_update_in_place` append exactly its
one `Update` record at the runtime's own address. -/
theorem log_update_in_place_ok {α : Type} (enc : α → List Nat) (r : Runtime)
    (v : α) (h : r.logger.sinkOk = true) :
    r.log_update_in_place enc v =
      .ok ⟨⟨true, r.logger.entries ++ [.update r.path.tags (enc v)]⟩, r.path⟩ := by
  obtain ⟨⟨ok, es⟩, p⟩ := r
  simp only at h
  subst h
  simp [Runtime.log_update_in_place, Logger.log_entry, LogEntry.new_update, Except.map]

/-- Claim C1: for every field tag and every field kind, the generated
serializer writes the field's wire header as the single unsigned value
`tag <<< 3 ||| WIRE_TYPE` (the `u32` arithmetic never wraps for a `u16`
tag), where the wire type is `0` for a supported primitive type and `2`
for a nested stateful object. -/
theorem field_serializer_header (tag : Nat) (htag : tag < 65536)
    (k : FieldKind) (valueBytes : List Nat) :
    fieldSerializer tag k valueBytes = varint ((tag <<< 3) ||| k.wire_type) ++ valueBytes ∧
    FieldKind.wire_type .primitive = 0 ∧ FieldKind.wire_type .state = 2 := by
  refine ⟨?_, rfl, rfl⟩
  have h8 : tag <<< 3 = tag * 8 := by
    rw [Nat.shiftLeft_eq]
  have hlt : tag <<< 3 < 2 ^ 32 := by
    rw [h8]; omega
  rw [fieldSerializer, fieldHeader, Nat.mod_eq_of_lt hlt]

/-- Witness for C1 at tag `5` and both field kinds. -/
theorem field_serializer_header_witness :
    (fieldSerializer 5 .primitive [7] = varint ((5 <<< 3) ||| FieldKind.wire_type .primitive) ++ [7] ∧
      FieldKind.wire_type .primitive = 0 ∧ FieldKind.wire_type .state = 2) ∧
    (fieldSerializer 5 .state [9] = varint ((5 <<< 3) ||| FieldKind.wire_type .state) ++ [9] ∧
      FieldKind.wire_type .primitive = 0 ∧ FieldKind.wire_type .state = 2) :=
  ⟨field_serializer_header 5 (by decide) .primitive [7],
   field_serializer_header 5 (by decide) .state [9]⟩

/-- Claim C2: extending an address by one tag and then taking the parent
yields the original address — `(r.nested t).parent` succeeds and its
address is structurally equal to the address of `r`. -/
theorem nested_parent_roundtrip (r : Runtime) (t : Nat) :
    ∃ q : Runtime, (r.nested t).parent = some q ∧ q.path = r.path :=
  ⟨⟨r.logger, r.path⟩, rfl, rfl⟩

/-- Claim C3: `Runtime` equality is degenerate — for all runtimes `a` and
`b`, whatever their addresses and loggers, `Runtime.eq a b` is `true`. -/
theorem runtime_eq_degenerate (a b : Runtime) : Runtime.eq a b = true :=
  rfl

/-- Claim C4: `parent()` on a root-addressed runtime fails (the Rust code
panics on the violated precondition before touching any shared state,
modelled as `none`); on any child-addressed runtime it succeeds and
returns the existing ancestor node, with the same logger handle and no
new tree node. -/
theorem parent_root_fails_child_succeeds :
    (∀ r : Runtime, r.is_root = true → r.parent = none) ∧
    (∀ r : Runtime, r.is_child = true →
      ∃ p t c, r.path = Node.child p t c ∧ r.parent = some ⟨r.logger, p⟩) := by
  constructor
  · intro r h
    obtain ⟨l, p⟩ := r
    cases p with
    | root c => rfl
    | child q t c => simp [Runtime.is_root] at h
  · intro r h
    obtain ⟨l, p⟩ := r
    cases p with
    | root c => simp [Runtime.is_child, Runtime.is_root] at h
    | child q t c => exact ⟨q, t, c, rfl, rfl⟩

/-- Witness for C4: the fresh runtime is root-addressed and its parent
call fails; a nested runtime is child-addressed and its parent call
returns the original address. -/
theorem parent_root_fails_child_succeeds_witness :
    Runtime.new.parent = none ∧
    ∃ p t c, (Runtime.new.nested 5).path = Node.child p t c ∧
      (Runtime.new.nested 5).parent = some ⟨(Runtime.new.nested 5).logger, p⟩ :=
  ⟨parent_root_fails_child_succeeds.1 Runtime.new rfl,
   parent_root_fails_child_succeeds.2 (Runtime.new.nested 5) rfl⟩

/-- Claim C5: `log_update(tag, v)` appends exactly one `Update` record to
the shared logger, addressed at the current address extended by `tag`,
with payload the wire encoding of `v`. -/
theorem log_update_appends_one_update {α : Type} (enc : α → List Nat)
    (r : Runtime) (tag : Nat) (v : α) (h : r.logger.sinkOk = true) :
    r.log_update enc tag v =
      .ok ⟨⟨true, r.logger.entries ++ [.update (r.path.tags ++ [tag]) (enc v)]⟩, r.path⟩ := by
  obtain ⟨⟨ok, es⟩, p⟩ := r
  simp only at h
  subst h
  simp [Runtime.log_update, Logger.log_entry, LogEntry.new_update, Runtime.nested,
    Node.tags, Except.map]

/-- Witness for C5, the scenario of the spec: `R = Runtime.new`,
`F = R.nested 3`, `F.log_update 7 42` yields exactly one `Update` record
addressed `[3, 7]` whose payload is the scalar varint encoding of `42`,
namely `[42]`. -/
theorem log_update_appends_one_update_witness :
    (Runtime.new.nested 3).log_update varint 7 42 =
      .ok ⟨⟨true, [.update [3, 7] [42]]⟩, (Runtime.new.nested 3).path⟩ := by
  have h := log_update_appends_one_update varint (Runtime.new.nested 3) 7 42 rfl
  simpa [Runtime.new, Runtime.nested, Logger.new, Node.tags, varint] using h

/-- Claim C6: `nested(t)` returns a runtime whose address is the current
address extended by exactly the one tag `t` (one fresh child node) and
whose logger handle is the same as the parent's; it is a total function
and appends nothing to the log. -/
theorem nested_extends_address_shares_logger (r : Runtime) (t : Nat) :
    (r.nested t).path = Node.child r.path t 0 ∧ (r.nested t).logger = r.logger :=
  ⟨rfl, rfl⟩

/-- Claim C7: `log_remove(tag)` appends exactly one `Remove` record,
addressed at the current address extended by `tag`; the `remove`
constructor carries no payload bytes. -/
theorem log_remove_appends_one_remove (r : Runtime) (tag : Nat)
    (h : r.logger.sinkOk = true) :
    r.log_remove tag =
      .ok ⟨⟨true, r.logger.entries ++ [.remove (r.path.tags ++ [tag])]⟩, r.path⟩ := by
  obtain ⟨⟨ok, es⟩, p⟩ := r
  simp only at h
  subst h
  simp [Runtime.log_remove, Logger.log_entry, LogEntry.new_remove, Runtime.nested,
    Node.tags, Except.map]

/-- Witness for C7, the scenario of the spec: `log_remove 9` on a runtime
addressed `[1]` appends exactly one `Remove` record addressed `[1, 9]`. -/
theorem log_remove_appends_one_remove_witness :
    (Runtime.new.nested 1).log_remove 9 =
      .ok ⟨⟨true, [.remove [1, 9]]⟩, (Runtime.new.nested 1).path⟩ := by
  have h := log_remove_appends_one_remove (Runtime.new.nested 1) 9 rfl
  simpa [Runtime.new, Runtime.nested, Logger.new, Node.tags] using h

/-- Claim C8: `Runtime` satisfies the wire contract by delegating entirely
to its path: size computation, cached size, both serialization entry
points (same bytes written) and the `WIRE_TYPE` constant all agree with
the corresponding operation on the runtime's path node. -/
theorem runtime_wire_delegates_to_path (r : Runtime) :
    Runtime.compute_size r = r.path.compute_size ∧
    Runtime.cached_size r = r.path.cached_size ∧
    Runtime.serialize_with_cached_size r = r.path.serialize_with_cached_size ∧
    (Runtime.serialize r).1 = (r.path.serialize).1 ∧
    Runtime.WIRE_TYPE = Node.WIRE_TYPE :=
  ⟨rfl, rfl, rfl, rfl, rfl⟩

/-- Claim C9: the generated nested-object-field setter constructs the
replacement through `runtime.nested(tag)` and appends exactly one
`Update` record addressed at the field's address (the enclosing address
extended by the field's tag) with payload the encoding of the
replacement; that address is the replacement's own address, and logging
`log_update_in_place` through the replacement's own runtime appends the
identical record.  `hctor` is the construction contract: the replacement
stores the runtime it was built from. -/
theorem state_setter_logs_field_address (enc : StateValue → List Nat)
    (o : StateStruct) (tag : Nat) (get_value : Runtime → StateValue)
    (hsink : o.runtime.logger.sinkOk = true)
    (hctor : ∀ rt, (get_value rt).runtime = rt) :
    StateStruct.set_field_with enc tag o get_value =
      some ⟨⟨⟨true, o.runtime.logger.entries ++
          [.update (o.runtime.path.tags ++ [tag]) (enc (get_value (o.runtime.nested tag)))]⟩,
        o.runtime.path⟩, get_value (o.runtime.nested tag)⟩ ∧
    (get_value (o.runtime.nested tag)).runtime.path.tags = o.runtime.path.tags ++ [tag] ∧
    (get_value (o.runtime.nested tag)).runtime.log_update_in_place enc
        (get_value (o.runtime.nested tag)) =
      .ok ⟨⟨true, o.runtime.logger.entries ++
          [.update (o.runtime.path.tags ++ [tag]) (enc (get_value (o.runtime.nested tag)))]⟩,
        (get_value (o.runtime.nested tag)).runtime.path⟩ := by
  have hv : (get_value (o.runtime.nested tag)).runtime = o.runtime.nested tag :=
    hctor (o.runtime.nested tag)
  refine ⟨?_, ?_, ?_⟩
  · unfold StateStruct.set_field_with
    dsimp only
    rw [log_update_ok enc o.runtime tag (get_value (o.runtime.nested tag)) hsink]
  · rw [hv]
    simp [Runtime.nested, Node.tags]
  · rw [hv]
    rw [log_update_in_place_ok enc (o.runtime.nested tag)
      (get_value (o.runtime.nested tag)) hsink]
    simp [Runtime.nested, Node.tags]

/-- Witness for C9: a concrete struct rooted at a fresh runtime, field
tag `4`, replacement data `9` — the setter appends the one `Update`
record addressed `[4]` with payload `[9]`, and `log_update_in_place` on
the replacement's runtime appends the identical record. -/
theorem state_setter_logs_field_address_witness :
    StateStruct.set_field_with (fun w => [w.data]) 4
        ⟨Runtime.new, ⟨Runtime.new.nested 1, 0⟩⟩ (fun rt => ⟨rt, 9⟩) =
      some ⟨⟨⟨true, [.update [4] [9]]⟩, Runtime.new.path⟩, ⟨Runtime.new.nested 4, 9⟩⟩ ∧
    (Runtime.new.nested 4).path.tags = [4] ∧
    (Runtime.new.nested 4).log_update_in_place (fun w => [w.data])
        (⟨Runtime.new.nested 4, 9⟩ : StateValue) =
      .ok ⟨⟨true, [.update [4] [9]]⟩, (Runtime.new.nested 4).path⟩ := by
  have h := state_setter_logs_field_address (fun w => [w.data])
    ⟨Runtime.new, ⟨Runtime.new.nested 1, 0⟩⟩ 4 (fun rt => ⟨rt, 9⟩) rfl (fun rt => rfl)
  simpa [Runtime.new, Runtime.nested, Logger.new, Node.tags] using h

/-- Claim C10: each generated setter discharges the result of its logging
call with `.unwrap()`: when the logger's sink fails, the primitive-field
setter, the nested-object-field setter and the enum-variant reset path
all end in a panic (modelled `none`) instead of returning the sink error
to the caller. -/
theorem setters_unwrap_on_sink_failure (encP : Nat → List Nat)
    (encS : StateValue → List Nat) (encE : EnumValue → List Nat)
    (o : PrimStruct) (o2 : StateStruct) (e : EnumValue)
    (tagP tagS vtag ftag v v2 : Nat) (get_value : Runtime → StateValue) (p : Runtime)
    (h1 : o.runtime.logger.sinkOk = false)
    (h2 : o2.runtime.logger.sinkOk = false)
    (h3 : e.runtime.logger.sinkOk = false)
    (h4 : e.variantTag ≠ vtag)
    (h5 : e.runtime.parent = some p) :
    PrimStruct.set_field encP tagP o v = none ∧
    StateStruct.set_field_with encS tagS o2 get_value = none ∧
    EnumValue.set_variant_field encE encP vtag ftag e v2 = none := by
  refine ⟨?_, ?_, ?_⟩
  · unfold PrimStruct.set_field
    rw [log_update_err encP o.runtime tagP v h1]
  · unfold StateStruct.set_field_with
    dsimp only
    rw [log_update_err encS o2.runtime tagS (get_value (o2.runtime.nested tagS)) h2]
  · obtain ⟨⟨⟨ok, es⟩, epath⟩, evtag, edata⟩ := e
    simp only at h3 h4 h5
    subst h3
    cases epath with
    | root c =>
      simp [Runtime.parent, Node.parent] at h5
    | child q t c =>
      simp only [Runtime.parent, Node.parent, Option.map] at h5
      obtain rfl : (⟨⟨false, es⟩, q⟩ : Runtime) = p := Option.some.inj h5
      simp [EnumValue.set_variant_field, mkVariant, Runtime.nested, Runtime.parent,
        Node.parent, Runtime.log_update, Logger.log_entry, Except.map, h4]

/-- Witness for C10: concrete setters over a logger whose sink has
failed, all three ending in the modelled panic. -/
theorem setters_unwrap_on_sink_failure_witness :
    PrimStruct.set_field varint 1 ⟨⟨⟨false, []⟩, .root 0⟩, 0⟩ 3 = none ∧
    StateStruct.set_field_with (fun w => [w.data]) 2
        ⟨⟨⟨false, []⟩, .root 0⟩, ⟨Runtime.new, 0⟩⟩ (fun rt => ⟨rt, 0⟩) = none ∧
    EnumValue.set_variant_field (fun _ => []) varint 6 1
        ⟨⟨⟨false, []⟩, .child (.root 0) 1 0⟩, 5, 0⟩ 7 = none :=
  setters_unwrap_on_sink_failure varint (fun w => [w.data]) (fun _ => [])
    ⟨⟨⟨false, []⟩, .root 0⟩, 0⟩ ⟨⟨⟨false, []⟩, .root 0⟩, ⟨Runtime.new, 0⟩⟩
    ⟨⟨⟨false, []⟩, .child (.root 0) 1 0⟩, 5, 0⟩ 1 2 6 1 3 7 (fun rt => ⟨rt, 0⟩)
    ⟨⟨false, []⟩, .root 0⟩ rfl rfl rfl (by decide) rfl

end Steit
